import Mathlib

/-!
Verification of the review-council ("conclave") findings pipeline.

The Python source files under `src/conclave/` are shallowly embedded as
executable Lean definitions:

* `src/conclave/core/synthesis.py`  — verdict classification and exit codes;
* `src/conclave/core/findings.py`   — the markdown findings parser;
* `src/conclave/core/validator.py`  — the validation adjustment pass;
* `src/conclave/core/scanner.py`    — 7-tier file selection;
* `src/conclave/providers/base.py`  — retry policy for provider calls.

Python dictionaries that always carry a fixed set of keys are embedded as
structures with `Option` fields for keys that may be absent; `dict[str, ...]`
maps preserving insertion order are embedded as association lists.
-/

namespace Conclave

/-! ## String utilities shared by the embeddings

Python string primitives (`in`, `str.find`, `str.strip`, `fnmatch`,
`pathlib.PurePath.suffix`) embedded over `List Char`. -/

/-- Python whitespace for `str.strip` / regex `\s` (ASCII range). -/
def isPyWs (c : Char) : Bool :=
  c == ' ' || c == '\t' || c == '\n' || c == '\r' || c == '\x0B' || c == '\x0C'

/-- `str.lower()` (ASCII case folding per `Char.toLower`). -/
def lowerStr (s : String) : String := ⟨s.data.map Char.toLower⟩

/-- `str.upper()` (ASCII case folding per `Char.toUpper`). -/
def upperStr (s : String) : String := ⟨s.data.map Char.toUpper⟩

/-- String equality by character list (kernel-friendly). -/
def strEq (a b : String) : Bool := a.data == b.data

/-- List-of-chars prefix test. -/
def isPrefixList : List Char → List Char → Bool
  | [], _ => true
  | _ :: _, [] => false
  | p :: ps, c :: cs => p == c && isPrefixList ps cs

/-- Helper for `containsSubstr`. -/
def containsSubAux (pat : List Char) : List Char → Bool
  | [] => pat.isEmpty
  | c :: rest => isPrefixList pat (c :: rest) || containsSubAux pat rest

/-- Python's `pat in s` substring test. -/
def containsSubstr (s pat : String) : Bool :=
  pat.data.isEmpty || containsSubAux pat.data s.data

/-- Python's `s.startswith(p)`. -/
def strStartsWith (s p : String) : Bool := isPrefixList p.data s.data

/-- Helper for `findSubFrom`: first position (≥ `pos`) where `pat` starts. -/
def findSubAux (pat : List Char) : List Char → Nat → Option Nat
  | [], pos => if isPrefixList pat [] then some pos else none
  | c :: rest, pos =>
    if isPrefixList pat (c :: rest) then some pos
    else findSubAux pat rest (pos + 1)

/-- Python's `content.find(pat, start)` (absent = `none` instead of -1). -/
def findSubFrom (content : List Char) (pat : List Char) (start : Nat) : Option Nat :=
  findSubAux pat (content.drop start) start

/-- Python `str.strip()` (whitespace from both ends). -/
def pyStrip (s : String) : String :=
  ⟨((s.data.dropWhile isPyWs).reverse.dropWhile isPyWs).reverse⟩

/-- Fuel-based core of `globMatch` (fuel keeps the recursion structural so
that the kernel can evaluate it; every step shrinks `ps.length + s.length`,
so `ps.length + s.length + 1` fuel always suffices). -/
def globMatchAux : Nat → List Char → List Char → Bool
  | 0, _, _ => false
  | _ + 1, [], [] => true
  | _ + 1, [], _ :: _ => false
  | f + 1, '*' :: ps, s =>
    globMatchAux f ps s ||
      (match s with
       | [] => false
       | _ :: s' => globMatchAux f ('*' :: ps) s')
  | f + 1, '?' :: ps, _ :: s' => globMatchAux f ps s'
  | _ + 1, _ :: _, [] => false
  | f + 1, p :: ps, c :: s' => p == c && globMatchAux f ps s'

/-- `fnmatch`-style glob match, supporting `*` and `?` wildcards
(`_matches_glob` in core/scanner.py). -/
def globMatch (ps s : List Char) : Bool :=
  globMatchAux (ps.length + s.length + 1) ps s

/-- `pathlib.PurePath.suffix`: the final extension, from a dot strictly
inside the name. -/
def pathSuffix (name : String) : String :=
  let cs := name.data
  match cs.reverse.findIdx? (· == '.') with
  | none => ""
  | some rIdx =>
    let i := cs.length - 1 - rIdx
    if 0 < i && i < cs.length - 1 then ⟨cs.drop i⟩ else ""

/-! ## A small backtracking regex engine

The Python code drives its parsing through `re`.  The patterns it uses are
embedded as abstract syntax trees and matched with a backtracking engine
whose priorities mirror CPython's: alternation prefers the left branch,
greedy repetition prefers longer matches, lazy repetition prefers shorter
ones, `finditer` yields non-overlapping leftmost matches. -/

/-- Regex abstract syntax: character classes, sequencing, alternation,
greedy/lazy star, capture groups, lookahead, and the anchors the source
patterns use (`^` at string start, `\Z`, `$`, `\b`). -/
inductive RE where
  | eps
  | cls (p : Char → Bool)
  | seq (a b : RE)
  | alt (a b : RE)
  | star (lazyQ : Bool) (a : RE)
  | group (idx : Nat) (a : RE)
  | la (a : RE)
  | bos
  | eosZ
  | eolD
  | wb

/-- ASCII `\w` test for `\b`. -/
def isWordChar (c : Char) : Bool := c.isAlpha || c.isDigit || c == '_'

/-- Capture list: `(group index, start, end)`, most recent first. -/
abbrev Caps := List (Nat × Nat × Nat)

/-- Backtracking matcher.  `reRun fuel r s pos g` returns the list of
possible `(end position, captures)` continuations in priority order; the
head is the match the Python engine would pick.  Fuel keeps the recursion
structural; every recursive call decrements it and `reFuel` below always
suffices for the patterns in this file. -/
def reRun : Nat → RE → List Char → Nat → Caps → List (Nat × Caps)
  | 0, _, _, _, _ => []
  | fuel + 1, r, s, pos, g =>
    match r with
    | .eps => [(pos, g)]
    | .cls p =>
      match s.get? pos with
      | some c => if p c then [(pos + 1, g)] else []
      | none => []
    | .seq a b =>
      (reRun fuel a s pos g).flatMap (fun pg => reRun fuel b s pg.1 pg.2)
    | .alt a b => reRun fuel a s pos g ++ reRun fuel b s pos g
    | .star lazyQ a =>
      let stop := [(pos, g)]
      let go := (reRun fuel a s pos g).flatMap (fun pg =>
        if pg.1 == pos then [] else reRun fuel (.star lazyQ a) s pg.1 pg.2)
      if lazyQ then stop ++ go else go ++ stop
    | .group n a =>
      (reRun fuel a s pos g).map (fun pg => (pg.1, (n, pos, pg.1) :: pg.2))
    | .la a => if (reRun fuel a s pos g).isEmpty then [] else [(pos, g)]
    | .bos => if pos == 0 then [(pos, g)] else []
    | .eosZ => if pos == s.length then [(pos, g)] else []
    | .eolD =>
      if pos == s.length || (pos + 1 == s.length && s.get? pos == some '\n')
      then [(pos, g)] else []
    | .wb =>
      let wAt := fun (i : Nat) =>
        match s.get? i with
        | some c => isWordChar c
        | none => false
      let prevW := if pos == 0 then false else wAt (pos - 1)
      if prevW != wAt pos then [(pos, g)] else []

/-- Structural size of a pattern (for the fuel bound). -/
def reSize : RE → Nat
  | .eps | .cls _ | .bos | .eosZ | .eolD | .wb => 1
  | .seq a b | .alt a b => reSize a + reSize b + 1
  | .star _ a | .group _ a | .la a => reSize a + 1

/-- Fuel that always suffices: stars only repeat over small bodies and every
iteration consumes at least one character. -/
def reFuel (r : RE) (s : List Char) : Nat :=
  (s.length + 2) * (reSize r + 2)

/-- One regex match: start/end offsets plus captures. -/
structure RMatch where
  start : Nat
  stop : Nat
  caps : Caps
deriving Repr, DecidableEq

/-- `re.match` anchored at `pos`: the engine's preferred match, if any. -/
def reMatchAt (r : RE) (s : List Char) (pos : Nat) : Option RMatch :=
  match reRun (reFuel r s) r s pos [] with
  | [] => none
  | (e, g) :: _ => some ⟨pos, e, g⟩

/-- Helper for `reSearch`: try successive start positions. -/
def reSearchAux (r : RE) (s : List Char) : Nat → Nat → Option RMatch
  | 0, _ => none
  | f + 1, pos =>
    match reMatchAt r s pos with
    | some m => some m
    | none => if pos ≥ s.length then none else reSearchAux r s f (pos + 1)

/-- `re.search`: the leftmost match. -/
def reSearch (r : RE) (s : List Char) : Option RMatch :=
  reSearchAux r s (s.length + 1) 0

/-- Helper for `reFindAll`: scan forward, resuming after each match
(advancing one character after an empty match, as CPython does). -/
def reFindAux (r : RE) (s : List Char) : Nat → Nat → List RMatch
  | 0, _ => []
  | f + 1, pos =>
    if pos > s.length then []
    else
      match reMatchAt r s pos with
      | some m =>
        m :: reFindAux r s f (if m.stop == pos then pos + 1 else m.stop)
      | none => reFindAux r s f (pos + 1)

/-- `re.finditer`: all non-overlapping leftmost matches, in order. -/
def reFindAll (r : RE) (s : List Char) : List RMatch :=
  reFindAux r s (s.length + 2) 0

/-- Text of capture group `n` of a match (all groups in the embedded
patterns participate whenever the pattern matches). -/
def groupStr (s : List Char) (m : RMatch) (n : Nat) : String :=
  match m.caps.find? (fun t => t.1 == n) with
  | some t => ⟨(s.drop t.2.1).take (t.2.2 - t.2.1)⟩
  | none => ""

/-- Drop the spans `(a, b)` (sorted, disjoint) from a character list;
`cursor` is the absolute offset already emitted. -/
def cutSpans (cs : List Char) : Nat → List (Nat × Nat) → List Char
  | cursor, [] => cs.drop cursor
  | cursor, (a, b) :: rest => ((cs.drop cursor).take (a - cursor)) ++ cutSpans cs b rest

/-- `re.sub(r, "", s)`: remove every match of `r`. -/
def reSubEmpty (r : RE) (s : List Char) : List Char :=
  cutSpans s 0 ((reFindAll r s).map (fun m => (m.start, m.stop)))

/-- Helper for `removeAllSub`. -/
def removeAllSubAux (pat : List Char) : Nat → List Char → List Char
  | 0, cs => cs
  | f + 1, cs =>
    if isPrefixList pat cs then removeAllSubAux pat f (cs.drop pat.length)
    else
      match cs with
      | [] => []
      | c :: rest => c :: removeAllSubAux pat f rest

/-- Python `s.replace(pat, "")` for non-empty `pat`: remove leftmost
non-overlapping occurrences. -/
def removeAllSub (pat cs : List Char) : List Char :=
  removeAllSubAux pat (cs.length + 1) cs

/-! ### Pattern constructors -/

/-- Literal string. -/
def reLit (w : String) : RE :=
  w.data.foldr (fun c acc => .seq (.cls (fun x => x == c)) acc) .eps

/-- Case-insensitive literal (for `re.IGNORECASE`). -/
def reLitCI (w : String) : RE :=
  w.data.foldr (fun c acc => .seq (.cls (fun x => x.toLower == c.toLower)) acc) .eps

/-- Single literal character. -/
def reCh (c : Char) : RE := .cls (fun x => x == c)

/-- Greedy `?`. -/
def reOpt (r : RE) : RE := .alt r .eps

/-- Greedy `+`. -/
def rePlus (r : RE) : RE := .seq r (.star false r)

/-- Lazy `+?`. -/
def rePlusL (r : RE) : RE := .seq r (.star true r)

/-- Sequence of patterns. -/
def reSeq (l : List RE) : RE := l.foldr .seq .eps

/-- Alternation of patterns (leftmost priority). -/
def reAlt : List RE → RE
  | [] => .eps
  | [r] => r
  | r :: rest => .alt r (reAlt rest)

/-- `\s` (ASCII). -/
def wsC : RE := .cls isPyWs

/-- `.` without DOTALL: anything but a newline. -/
def anyNoNL : RE := .cls (fun c => c != '\n')

/-- `[\s\S]`, or `.` under DOTALL. -/
def anyC : RE := .cls (fun _ => true)

/-- `[A-Z]`. -/
def upperC : RE := .cls (fun c => 'A' ≤ c && c ≤ 'Z')

/-- `\d` (ASCII). -/
def digitC : RE := .cls Char.isDigit

/-! ## Data model (models/finding.py, models/review.py, models/provider.py) -/

/-- A single finding as the parser / validator represent it: a string-keyed
record.  Fields that the Python code may leave absent are `Option`s. -/
structure Finding where
  id : String
  title : String
  severity : String
  file : Option String := none
  line : Option Nat := none
  effort : Option String := none
  issue : Option String := none
  evidence : Option String := none
  recommendation : Option String := none
  original_severity : Option String := none
  validated : Option String := none
  validation_reason : Option String := none
deriving Repr, DecidableEq

/-- Severity summary (`summary` dict produced by the parser and the
validator): per-severity counts plus a total. -/
structure Summary where
  blockers : Nat := 0
  high : Nat := 0
  medium : Nat := 0
  low : Nat := 0
  total : Nat := 0
deriving Repr, DecidableEq

/-- One agent's structured result, as the validator and synthesis see it:
a findings list plus its summary. -/
structure AgentData where
  findings : List Finding := []
  summary : Summary := {}
deriving Repr, DecidableEq

/-- The `all_findings : dict[str, dict]` map, in insertion order. -/
abbrev AllFindings := List (String × AgentData)

/-- `Verdict` enum from models/review.py. -/
inductive Verdict where
  | SHIP
  | CONDITIONAL
  | HOLD
deriving Repr, DecidableEq

/-! ## Synthesis (core/synthesis.py) -/

/-- `total_blockers` accumulated by `calculate_verdict`: sum of the
`blockers` fields over agent entries with a present summary. -/
def sumBlockers (all_findings : List (String × Option Summary)) : Nat :=
  (all_findings.map (fun a => (a.2.map Summary.blockers).getD 0)).sum

/-- `total_high` accumulated by `calculate_verdict`. -/
def sumHigh (all_findings : List (String × Option Summary)) : Nat :=
  (all_findings.map (fun a => (a.2.map Summary.high).getD 0)).sum

/-- `calculate_verdict` from core/synthesis.py.  The Python function skips
agent entries whose dict is falsy or lacks a truthy `summary`; those
unrepresentable-in-structure cases are embedded as `Option Summary` values
(`none` = skipped).

- HOLD: any BLOCKER
- CONDITIONAL: no blockers but >3 HIGH
- SHIP: everything else -/
def calculate_verdict (all_findings : List (String × Option Summary)) : Verdict :=
  if sumBlockers all_findings > 0 then .HOLD
  else if sumHigh all_findings > 3 then .CONDITIONAL
  else .SHIP

/-- `get_exit_code` from core/synthesis.py. -/
def get_exit_code (v : Verdict) : Nat :=
  match v with
  | .SHIP => 0
  | .CONDITIONAL => 2
  | .HOLD => 1

/-! ## Findings parser (core/findings.py) -/

/-- `int(...)` on a digit string (all uses are on `\d+` captures). -/
def toNatStr (s : String) : Nat :=
  s.data.foldl (fun n c => n * 10 + (c.toNat - '0'.toNat)) 0

/-- Pattern of `_get_code_block_ranges`:  ```` ```[\s\S]*?``` ````. -/
def codeBlockPat : RE := reSeq [reLit "```", .star true anyC, reLit "```"]

/-- `_get_code_block_ranges` from core/findings.py. -/
def get_code_block_ranges (content : List Char) : List (Nat × Nat) :=
  (reFindAll codeBlockPat content).map (fun m => (m.start, m.stop))

/-- `_in_code_block` from core/findings.py. -/
def in_code_block (pos : Nat) (ranges : List (Nat × Nat)) : Bool :=
  ranges.any (fun r => r.1 ≤ pos && pos < r.2)

/-- The finding heading pattern
`###\s+([A-Z]+-\d+):\s*(.+?)\s*\[(BLOCKER|HIGH|MEDIUM|LOW)\]`. -/
def headingPat : RE :=
  reSeq [reLit "###", rePlus wsC,
         .group 1 (reSeq [rePlus upperC, reCh '-', rePlus digitC]),
         reCh ':', .star false wsC,
         .group 2 (rePlusL anyNoNL),
         .star false wsC, reCh '[',
         .group 3 (reAlt [reLit "BLOCKER", reLit "HIGH", reLit "MEDIUM", reLit "LOW"]),
         reCh ']']

/-- The character class `[^\s`\r\n*]` of the Location/File pattern. -/
def locChar : RE :=
  .cls (fun c => !(isPyWs c) && !(c == '`') && !(c == '\r') && !(c == '\n') && !(c == '*'))

/-- Location pattern
`(?:\*\*)?(?:Location|File)(?:\*\*)?:?\*?\*?\s*`?([^\s`\r\n*]+(?::[^\s`\r\n*]*)?)`?`. -/
def locPat : RE :=
  reSeq [reOpt (reLit "**"),
         .alt (reLit "Location") (reLit "File"),
         reOpt (reLit "**"), reOpt (reCh ':'), reOpt (reCh '*'), reOpt (reCh '*'),
         .star false wsC, reOpt (reCh '`'),
         .group 1 (reSeq [rePlus locChar,
                          reOpt (reSeq [reCh ':', .star false locChar])]),
         reOpt (reCh '`')]

/-- The `^(.+):(\d+)$` split of a `path:line` location (used with
`re.match`, i.e. anchored at the start). -/
def lineCheckPat : RE :=
  reSeq [.group 1 (rePlus anyNoNL), reCh ':', .group 2 (rePlus digitC), .eolD]

/-- Line pattern `(?:\*\*)?Line(?:\*\*)?:?\*?\*?\s*(\d+)`. -/
def linePat : RE :=
  reSeq [reOpt (reLit "**"), reLit "Line", reOpt (reLit "**"),
         reOpt (reCh ':'), reOpt (reCh '*'), reOpt (reCh '*'),
         .star false wsC, .group 1 (rePlus digitC)]

/-- Effort pattern `(?:\*\*)?Effort(?:\*\*)?:?\*?\*?\s*([SML])\b`. -/
def effortPat : RE :=
  reSeq [reOpt (reLit "**"), reLit "Effort", reOpt (reLit "**"),
         reOpt (reCh ':'), reOpt (reCh '*'), reOpt (reCh '*'),
         .star false wsC,
         .group 1 (.cls (fun c => c == 'S' || c == 'M' || c == 'L')), .wb]

/-- `_get_section_text`'s pattern for a given header sub-pattern:
`(?:\*\*)?{header}(?:\*\*)?:?\*?\*?\s*\r?\n([\s\S]*?)(?=\r?\n\*\*[A-Z]|\r?\n---|\Z)`. -/
def sectionPat (hdr : RE) : RE :=
  reSeq [reOpt (reLit "**"), hdr, reOpt (reLit "**"),
         reOpt (reCh ':'), reOpt (reCh '*'), reOpt (reCh '*'),
         .star false wsC, reOpt (reCh '\r'), reCh '\n',
         .group 1 (.star true anyC),
         .la (reAlt [reSeq [reOpt (reCh '\r'), reCh '\n', reLit "**", upperC],
                     reSeq [reOpt (reCh '\r'), reCh '\n', reLit "---"],
                     .eosZ])]

/-- Leading-fence trim `^\s*```[a-z]*\s*\r?\n` (anchored, no MULTILINE). -/
def fenceOpenPat : RE :=
  reSeq [.bos, .star false wsC, reLit "```",
         .star false (.cls (fun c => 'a' ≤ c && c ≤ 'z')),
         .star false wsC, reOpt (reCh '\r'), reCh '\n']

/-- Trailing-fence trim `\r?\n\s*```\s*$`. -/
def fenceClosePat : RE :=
  reSeq [reOpt (reCh '\r'), reCh '\n', .star false wsC, reLit "```",
         .star false wsC, .eolD]

/-- `_get_section_text` from core/findings.py. -/
def get_section_text (content : String) (hdr : RE) : Option String :=
  match reSearch (sectionPat hdr) content.data with
  | none => none
  | some m =>
    let text := pyStrip (groupStr content.data m 1)
    let text := reSubEmpty fenceOpenPat text.data
    let text := reSubEmpty fenceClosePat text
    let text := pyStrip ⟨text⟩
    if text.data.isEmpty then none else some text

/-- The label-stripping pattern of the issue fallback:
`\*\*(?:Location|File|Line|Effort|Evidence|Recommendation|Remediation|Issue)(?:\*\*)?:?[^\r\n]*`. -/
def labelLinePat : RE :=
  reSeq [reLit "**",
         reAlt [reLit "Location", reLit "File", reLit "Line", reLit "Effort",
                reLit "Evidence", reLit "Recommendation", reLit "Remediation",
                reLit "Issue"],
         reOpt (reLit "**"), reOpt (reCh ':'),
         .star false (.cls (fun c => !(c == '\r') && !(c == '\n')))]

/-- Build one finding from a heading match (the per-match body of the
`parse_findings_markdown` loop). -/
def mkFinding (content : List Char) (m : RMatch) : Finding :=
  let finding_id := groupStr content m 1
  let title := pyStrip (groupStr content m 2)
  let severity := groupStr content m 3
  -- Extract section between this header and the next ### or end
  let start_pos := m.stop
  let end_pos := (findSubFrom content "###".data start_pos).getD content.length
  let sectionCs := (content.drop start_pos).take (end_pos - start_pos)
  let sectionStr : String := ⟨sectionCs⟩
  -- Location/File
  let fileLine : Option String × Option Nat :=
    match reSearch locPat sectionCs with
    | some lm =>
      let loc := groupStr sectionCs lm 1
      match reMatchAt lineCheckPat loc.data 0 with
      | some lc =>
        (some (groupStr loc.data lc 1), some (toNatStr (groupStr loc.data lc 2)))
      | none => (some loc, none)
    | none => (none, none)
  -- Line (separate field)
  let line_val : Option Nat :=
    match fileLine.2 with
    | some v => some v
    | none => (reSearch linePat sectionCs).map (fun lm => toNatStr (groupStr sectionCs lm 1))
  -- Effort
  let effort_val : Option String :=
    (reSearch effortPat sectionCs).map (fun em => groupStr sectionCs em 1)
  -- Section-based extraction
  let issue0 := get_section_text sectionStr (reLit "Issue")
  let evidence := get_section_text sectionStr (reLit "Evidence")
  let recommendation :=
    get_section_text sectionStr (.alt (reLit "Recommendation") (reLit "Remediation"))
  -- Fallback: use remaining text as issue
  let issue : Option String :=
    match issue0 with
    | some t => some t
    | none =>
      let plain := reSubEmpty labelLinePat sectionCs
      let plain := reSubEmpty codeBlockPat plain
      let plain := pyStrip ⟨removeAllSub "---".data plain⟩
      if plain.data.isEmpty then none else some plain
  { id := finding_id, title := title, severity := severity,
    file := fileLine.1, line := line_val, effort := effort_val,
    issue := issue, evidence := evidence, recommendation := recommendation }

/-- The heading-match loop of `parse_findings_markdown`: skip matches whose
start offset falls inside a code block, build a finding from the rest. -/
def buildFindings (content : List Char) (ranges : List (Nat × Nat)) :
    List RMatch → List Finding
  | [] => []
  | m :: ms =>
    if in_code_block m.start ranges then buildFindings content ranges ms
    else mkFinding content m :: buildFindings content ranges ms

/-- The parsed payload of `parse_findings_markdown` (run metadata—agent
identity, timestamps, token normalization—is plumbing around this). -/
structure ParsedResult where
  status : String
  summary : Summary
  findings : List Finding
  rawMarkdown : String
deriving Repr, DecidableEq

/-- `parse_findings_markdown` from core/findings.py. -/
def parse_findings_markdown (content : String) : ParsedResult :=
  let cs := content.data
  let code_block_ranges := get_code_block_ranges cs
  let findings := buildFindings cs code_block_ranges (reFindAll headingPat cs)
  let summary : Summary :=
    { blockers := findings.countP (fun f => f.severity = "BLOCKER"),
      high := findings.countP (fun f => f.severity = "HIGH"),
      medium := findings.countP (fun f => f.severity = "MEDIUM"),
      low := findings.countP (fun f => f.severity = "LOW"),
      total := findings.length }
  { status := "complete", summary := summary,
    findings := findings, rawMarkdown := content }

/-! ## Validator (core/validator.py) -/

/-- One worklist item built by `_collect_high_severity_findings`.  The
Python code reads `finding.get("description", "")`; parsed findings carry
`issue`, never `description`, so that lookup always yields the default. -/
structure WorkItem where
  agent : String
  finding_id : String
  title : String
  severity : String
  file : String
  line : Option Nat
  description : String
  evidence : String
  recommendation : String
deriving Repr, DecidableEq

/-- `_collect_high_severity_findings` from core/validator.py. -/
def collect_high_severity_findings (all_findings : AllFindings) : List WorkItem :=
  all_findings.flatMap (fun a =>
    a.2.findings.filterMap (fun f =>
      let severity := upperStr f.severity
      if strEq severity "BLOCKER" || strEq severity "HIGH" then
        some { agent := a.1, finding_id := f.id, title := f.title,
               severity := severity, file := f.file.getD "", line := f.line,
               description := "", evidence := f.evidence.getD "",
               recommendation := f.recommendation.getD "" }
      else none))

/-- A `ValidationAdjustment` produced by `_parse_validation_results`. -/
structure Adjustment where
  finding_id : String
  original_severity : String
  adjusted_severity : String
  decision : String
  reason : String
deriving Repr, DecidableEq

/-- The validation stats dict.  (`stats[adj["decision"]] += 1` on a
decision string other than the three below would create a dict key that no
later code reads; `_parse_validation_results` only ever produces these
three.) -/
structure Stats where
  confirmed : Nat := 0
  downgraded : Nat := 0
  rejected : Nat := 0
  total : Nat := 0
deriving Repr, DecidableEq

/-- The `### VALIDATE:` block pattern (compiled with `re.IGNORECASE`):
`###\s+VALIDATE:\s+(\S+)\s*(?:—|–|-)\s*(BLOCKER|HIGH|MEDIUM|LOW)\s*(?:→|->)\s*(BLOCKER|HIGH|MEDIUM|LOW|REJECTED)`. -/
def validatePat : RE :=
  reSeq [reLit "###", rePlus wsC, reLitCI "VALIDATE:", rePlus wsC,
         .group 1 (rePlus (.cls (fun c => !(isPyWs c)))),
         .star false wsC,
         reAlt [reLit "—", reLit "–", reLit "-"],
         .star false wsC,
         .group 2 (reAlt [reLitCI "BLOCKER", reLitCI "HIGH",
                          reLitCI "MEDIUM", reLitCI "LOW"]),
         .star false wsC,
         .alt (reLit "→") (reLit "->"),
         .star false wsC,
         .group 3 (reAlt [reLitCI "BLOCKER", reLitCI "HIGH", reLitCI "MEDIUM",
                          reLitCI "LOW", reLitCI "REJECTED"])]

/-- Reason pattern `\*\*Reason:\*\*\s*(.+?)(?:\n\n|\n###|\Z)` with
`re.DOTALL` (so `.` is `anyC`), searched in the text after a match. -/
def reasonPat : RE :=
  reSeq [reLit "**Reason:**", .star false wsC,
         .group 1 (rePlusL anyC),
         reAlt [reLit "\n\n", reLit "\n###", .eosZ]]

/-- `_parse_validation_results` from core/validator.py. -/
def parse_validation_results (content : String) : List Adjustment :=
  (reFindAll validatePat content.data).map (fun m =>
    let finding_id := groupStr content.data m 1
    let original := upperStr (groupStr content.data m 2)
    let adjusted := upperStr (groupStr content.data m 3)
    -- Determine decision type
    let decision :=
      if strEq adjusted "REJECTED" then "rejected"
      else if strEq adjusted original then "confirmed"
      else "downgraded"
    -- Extract reason (look for **Reason:** after this match)
    let rest := content.data.drop m.stop
    let reason :=
      match reSearch reasonPat rest with
      | some rm => pyStrip (groupStr rest rm 1)
      | none => ""
    { finding_id := finding_id, original_severity := original,
      adjusted_severity := adjusted, decision := decision, reason := reason })

/-- The `adjustment_map` dict lookup (`{a["finding_id"]: a for a in
adjustments}`, so a later adjustment with the same id wins). -/
def adjustment_map (adjustments : List Adjustment) (fid : String) : Option Adjustment :=
  adjustments.reverse.find? (fun a => strEq a.finding_id fid)

/-- `stats[adj["decision"]] = stats.get(adj["decision"], 0) + 1`. -/
def bumpStat (s : Stats) (decision : String) : Stats :=
  if strEq decision "confirmed" then { s with confirmed := s.confirmed + 1 }
  else if strEq decision "downgraded" then { s with downgraded := s.downgraded + 1 }
  else if strEq decision "rejected" then { s with rejected := s.rejected + 1 }
  else s

/-- The per-agent findings loop of `_apply_adjustments`: rebuild the
findings list, dropping rejected findings, and thread the stats. -/
def applyToFindings (amap : String → Option Adjustment) (stats : Stats) :
    List Finding → List Finding × Stats
  | [] => ([], stats)
  | f :: rest =>
    match amap f.id with
    | none =>
      let r := applyToFindings amap stats rest
      (f :: r.1, r.2)
    | some adj =>
      let stats' := bumpStat stats adj.decision
      if strEq adj.decision "rejected" then
        -- Don't include rejected findings in the list
        applyToFindings amap stats' rest
      else if strEq adj.decision "downgraded" then
        let f' := { f with original_severity := some f.severity,
                           severity := adj.adjusted_severity,
                           validated := some "downgraded",
                           validation_reason := some adj.reason }
        let r := applyToFindings amap stats' rest
        (f' :: r.1, r.2)
      else
        let f' := { f with validated := some "confirmed" }
        let r := applyToFindings amap stats' rest
        (f' :: r.1, r.2)

/-- The summary recalculation loop at the end of `_apply_adjustments`
(severities other than the four, e.g. REJECTED, count only toward
`total`). -/
def recalcStep (s : Summary) (f : Finding) : Summary :=
  let sev := upperStr f.severity
  let s1 :=
    if strEq sev "BLOCKER" then { s with blockers := s.blockers + 1 }
    else if strEq sev "HIGH" then { s with high := s.high + 1 }
    else if strEq sev "MEDIUM" then { s with medium := s.medium + 1 }
    else if strEq sev "LOW" then { s with low := s.low + 1 }
    else s
  { s1 with total := s1.total + 1 }

/-- Recompute an agent's summary from its (adjusted) findings. -/
def recalcSummary (findings : List Finding) : Summary :=
  findings.foldl recalcStep {}

/-- The agent loop of `_apply_adjustments`. -/
def applyAgents (amap : String → Option Adjustment) :
    AllFindings → Stats → AllFindings × Stats
  | [], stats => ([], stats)
  | (k, ad) :: rest, stats =>
    let r := applyToFindings amap stats ad.findings
    let ad' : AgentData := { findings := r.1, summary := recalcSummary r.1 }
    let rr := applyAgents amap rest r.2
    ((k, ad') :: rr.1, rr.2)

/-- `_apply_adjustments` from core/validator.py. -/
def apply_adjustments (all_findings : AllFindings) (adjustments : List Adjustment) :
    AllFindings × Stats :=
  applyAgents (adjustment_map adjustments) all_findings
    { total := adjustments.length }

/-- The data flow of `run_validator` from core/validator.py (console
output and the debug dump of the raw validator output are I/O around
this).  `result` is what `complete_with_retry` returned. -/
structure CompletionResult where
  success : Bool
  content : Option String := none
  error : Option String := none
deriving Repr, DecidableEq

/-- `run_validator`'s effect on the findings data and its returned stats. -/
def run_validator (all_findings : AllFindings) (result : CompletionResult)
    (dry_run : Bool) : AllFindings × Stats :=
  let high_severity := collect_high_severity_findings all_findings
  if high_severity.isEmpty then
    (all_findings, { confirmed := 0, downgraded := 0, rejected := 0, total := 0 })
  else if dry_run then
    -- In dry-run, simulate validation (confirm everything)
    (all_findings,
     { confirmed := high_severity.length, downgraded := 0, rejected := 0,
       total := high_severity.length })
  else if !result.success then
    -- Validator failed: proceed with original findings
    (all_findings,
     { confirmed := high_severity.length, downgraded := 0, rejected := 0,
       total := high_severity.length })
  else
    let adjustments := parse_validation_results (result.content.getD "")
    apply_adjustments all_findings adjustments

/-! ## Provider retry policy (providers/base.py)

`complete_with_retry` is embedded over an abstract sequence of responses
(`responses attempt` is what the `complete()` call of that attempt
returns) and an abstract `sanitize` function standing for
`sanitize_error`, whose redactions depend on the process environment
(`USERPROFILE`/`HOME`).  Besides the returned result, the embedding
records the attempts consumed and the backoff sleeps performed, which are
the loop's observable behavior. -/

/-- `any(code in error_msg for code in codes)`. -/
def containsAnyOf (e : String) (codes : List String) : Bool :=
  codes.any (fun c => containsSubstr e c)

/-- The returned result plus the observable trace of the retry loop. -/
structure RetryTrace where
  result : CompletionResult
  attemptsMade : Nat
  sleeps : List Nat
deriving Repr, DecidableEq

/-- The `for attempt in range(1, rate_limit_max + 1)` loop of
`complete_with_retry`; `rem` counts the iterations left.  The `rem = 0`
fall-through is `return last_result or CompletionResult(success=False,
error="Max retries exceeded")`, which the loop never reaches because its
last iteration always returns. -/
def retryFrom (max_attempts retry_delay rate_limit_max : Nat)
    (sanitize : String → String) (responses : Nat → CompletionResult) :
    Nat → Nat → RetryTrace
  | _, 0 =>
    { result := { success := false, error := some "Max retries exceeded" },
      attemptsMade := 0, sleeps := [] }
  | attempt, rem + 1 =>
    let result := responses attempt
    if result.success then
      { result := result, attemptsMade := attempt, sleeps := [] }
    else
      let error_msg := result.error.getD ""
      let is_rate_limit := containsSubstr error_msg "429"
      let is_retryable :=
        (is_rate_limit
            || containsAnyOf error_msg
                ["500", "502", "503", "504", "timeout", "timed out"])
          && !(containsAnyOf error_msg ["400", "401", "403", "404"])
      let effective_max := if is_rate_limit then rate_limit_max else max_attempts
      if is_retryable = false ∨ effective_max ≤ attempt then
        { result := { result with error := some (sanitize error_msg) },
          attemptsMade := attempt, sleeps := [] }
      else
        -- Rate limits: 30s base. Others: standard backoff.
        let base_delay := if is_rate_limit then 30 else retry_delay
        let wait_time := base_delay * min attempt 3
        let r := retryFrom max_attempts retry_delay rate_limit_max sanitize
          responses (attempt + 1) rem
        { r with sleeps := wait_time :: r.sleeps }

/-- `complete_with_retry` from providers/base.py. -/
def complete_with_retry (max_attempts retry_delay : Nat)
    (sanitize : String → String) (responses : Nat → CompletionResult) : RetryTrace :=
  let rate_limit_max := max max_attempts 5
  retryFrom max_attempts retry_delay rate_limit_max sanitize responses 1 rate_limit_max

/-! ## Scanner file tiering (core/scanner.py) -/

/-- `TIER1_ALWAYS` set from core/scanner.py. -/
def TIER1_ALWAYS : List String :=
  ["main.py", "app.py", "server.js", "server.ts",
   "nginx.conf", "dockerfile", "manage.py", "wsgi.py", "asgi.py",
   ".env.example", "requirements.txt", "package.json", "pyproject.toml",
   "setup.cfg", "makefile", "rakefile", "gemfile",
   "go.mod", "cargo.toml", "pom.xml", "build.gradle"]

/-- `TIER2_DIRS` set from core/scanner.py. -/
def TIER2_DIRS : List String :=
  ["services", "core", "lib", "utils", "middleware", "api", "hooks",
   "controllers", "handlers", "routes", "endpoints"]

/-- `TIER3_DIRS` set from core/scanner.py. -/
def TIER3_DIRS : List String := ["models", "schemas", "entities", "types"]

/-- `TEST_DIRS` set from core/scanner.py. -/
def TEST_DIRS : List String := ["tests", "test", "__tests__", "spec", "specs"]

/-- `DOC_DIRS` set from core/scanner.py. -/
def DOC_DIRS : List String := ["docs", "documentation", "doc"]

/-- `TIER6_DIRS` set from core/scanner.py. -/
def TIER6_DIRS : List String :=
  ["components", "pages", "views", "screens", "layouts", "templates"]

/-- `API_DIRS` set from core/scanner.py. -/
def API_DIRS : List String :=
  ["services", "api", "endpoints", "controllers", "handlers", "routes"]

/-- `_is_test_file` from core/scanner.py: filename conventions for tests. -/
def is_test_file (name : String) : Bool :=
  strStartsWith name "test_"
  || (containsSubstr name "_test.")
  || (containsSubstr name ".test.")
  || (containsSubstr name ".Tests.")
  || (containsSubstr name ".spec.")
  || strEq name "conftest.py"

/-- Documentation filename patterns from `get_file_tier` (tier 5). -/
def doc_patterns : List String :=
  ["readme*", "contributing*", "changelog*", "license*",
   "rollback*", "migration*", "deployment*", "backup*",
   "operations*", "runbook*", "install*", "architecture*"]

/-- `get_file_tier` from core/scanner.py.  A file is identified by the
components of its path relative to the project root (`relative.parts`,
last component = filename). -/
def get_file_tier (parts : List String) : Nat :=
  let name := lowerStr (parts.getLastD "")
  let partsL := parts.map lowerStr
  -- Tier 1: Entry points & config
  if TIER1_ALWAYS.any (strEq name) then 1
  else if strStartsWith name "docker-compose." then 1
  else
    -- Ambiguous names — only Tier 1 if NOT inside API dirs
    let in_api_dir := partsL.any (fun p => API_DIRS.any (strEq p))
    if !in_api_dir
        && (strEq name "settings.py" || strEq name "setup.py"
            || strStartsWith name "config.") then 1
    -- index.js/ts only Tier 1 if near root (max 2 dirs deep)
    else if (strEq name "index.js" || strEq name "index.ts")
        && parts.length ≤ 3 then 1
    -- Tier 2: Core business logic
    else if partsL.any (fun p => TIER2_DIRS.any (strEq p)) && !(is_test_file name) then 2
    -- Tier 3: Models & schemas
    else if partsL.any (fun p => TIER3_DIRS.any (strEq p)) then 3
    -- Tier 4: Tests
    else if is_test_file name || partsL.any (fun p => TEST_DIRS.any (strEq p)) then 4
    -- Tier 5: Documentation
    else if doc_patterns.any (fun pat => globMatch pat.data name.data) then 5
    else if (partsL.any (fun p => DOC_DIRS.any (strEq p)))
        && strEq (lowerStr (pathSuffix (parts.getLastD ""))) ".md" then 5
    -- Tier 6: Frontend components
    else if partsL.any (fun p => TIER6_DIRS.any (strEq p)) then 6
    -- Tier 7: Everything else
    else 7

/-! ## Scanner two-pass selection (`get_source_files_content`)

A file found by the walk is identified by its relative path components,
its `st_size`, and the text `read_text` yields.  The per-tier byte cap is
taken as a parameter `tier_size_cap`: the source computes
`int(max_bytes * 0.30)` in binary floating point, and every theorem below
holds for all values of the parameter, hence for that one. -/

/-- One file surviving the walk + allowlist (`all_files`). -/
structure FileEntry where
  parts : List String
  size : Nat
  content : String
deriving Repr, DecidableEq

/-- `TIER_FILE_CAPS` with its `.get(t, 5)` default. -/
def tier_file_cap (t : Nat) : Nat :=
  if t == 1 then 15 else if t == 2 then 15 else if t == 3 then 8
  else if t == 4 then 10 else if t == 5 then 8 else if t == 6 then 10
  else if t == 7 then 5 else 5

/-- Sum of the sizes of a selection. -/
def sizeSum (l : List (FileEntry × Nat)) : Nat :=
  (l.map (fun ft => ft.1.size)).sum

/-- Strict "comes before" for size-descending order
(`sort(key=size, reverse=True)`). -/
def ltSizeDesc (a b : FileEntry × Nat) : Bool := b.1.size < a.1.size

/-- Strict "comes before" for `(tier ascending, size descending)`
(`sort(key=lambda x: (x[1], -size))`). -/
def ltTierSize (a b : FileEntry × Nat) : Bool :=
  a.2 < b.2 || (a.2 == b.2 && b.1.size < a.1.size)

/-- Insert `x` after every element strictly before it — a stable insertion
(mirrors the stability of Python's sort for our order statements). -/
def insertLt (lt : α → α → Bool) (x : α) : List α → List α
  | [] => [x]
  | y :: ys => if lt y x then y :: insertLt lt x ys else x :: y :: ys

/-- Stable insertion sort by a strict "comes before" test. -/
def sortLt (lt : α → α → Bool) : List α → List α
  | [] => []
  | x :: xs => insertLt lt x (sortLt lt xs)

/-- The inner loop of pass 1 over one tier's (size-sorted) candidates,
with the per-tier counters. -/
def pass1Tier (maxFiles maxBytes tierCap fileCap : Nat) :
    List (FileEntry × Nat) → List (FileEntry × Nat) → Nat → Nat → Nat →
    List (FileEntry × Nat) × Nat
  | [], selected, total_size, _, _ => (selected, total_size)
  | ft :: rest, selected, total_size, tier_count, tier_size =>
    if fileCap ≤ tier_count then (selected, total_size)
    else if maxFiles ≤ selected.length then (selected, total_size)
    else if maxBytes < total_size + ft.1.size then
      pass1Tier maxFiles maxBytes tierCap fileCap rest selected total_size
        tier_count tier_size
    else if tierCap < tier_size + ft.1.size then
      pass1Tier maxFiles maxBytes tierCap fileCap rest selected total_size
        tier_count tier_size
    else
      pass1Tier maxFiles maxBytes tierCap fileCap rest (selected ++ [ft])
        (total_size + ft.1.size) (tier_count + 1) (tier_size + ft.1.size)

/-- Pass 1's walk over the tiers (`for t in range(1, 8)`). -/
def pass1Tiers (maxFiles maxBytes tierCap : Nat) (tiered : List (FileEntry × Nat)) :
    List Nat → List (FileEntry × Nat) × Nat → List (FileEntry × Nat) × Nat
  | [], acc => acc
  | t :: ts, acc =>
    pass1Tiers maxFiles maxBytes tierCap tiered ts
      (pass1Tier maxFiles maxBytes tierCap (tier_file_cap t)
        (sortLt ltSizeDesc (tiered.filter (fun ft => ft.2 == t)))
        acc.1 acc.2 0 0)

/-- Pass 2's fill loop over the not-yet-selected files. -/
def pass2Loop (maxFiles maxBytes : Nat) :
    List (FileEntry × Nat) → List (FileEntry × Nat) → Nat →
    List (FileEntry × Nat) × Nat
  | [], selected, total_size => (selected, total_size)
  | ft :: rest, selected, total_size =>
    if maxFiles ≤ selected.length then (selected, total_size)
    else if maxBytes < total_size + ft.1.size then
      pass2Loop maxFiles maxBytes rest selected total_size
    else
      pass2Loop maxFiles maxBytes rest (selected ++ [ft]) (total_size + ft.1.size)

/-- Pass 2 (only if budget remains): fill from the files not selected in
pass 1 (set membership is by path), sorted by `(tier asc, size desc)`. -/
def pass2 (maxFiles maxBytes : Nat) (tiered : List (FileEntry × Nat))
    (acc : List (FileEntry × Nat) × Nat) : List (FileEntry × Nat) × Nat :=
  if acc.1.length < maxFiles && acc.2 < maxBytes then
    let remaining := tiered.filter
      (fun ft => !(acc.1.any (fun s => s.1.parts == ft.1.parts)))
    pass2Loop maxFiles maxBytes (sortLt ltTierSize remaining) acc.1 acc.2
  else acc

/-- The content-building loop: skip a file that would exceed the byte
budget or whose text is empty after trimming (a file whose read fails is
likewise skipped; the model's `content` is what a successful read
returns). -/
def emitLoop (maxFiles maxBytes : Nat) :
    List (FileEntry × Nat) → List (FileEntry × Nat) → Nat →
    List (FileEntry × Nat) × Nat
  | [], emitted, actual_size => (emitted, actual_size)
  | ft :: rest, emitted, actual_size =>
    if maxFiles ≤ emitted.length then (emitted, actual_size)
    else if maxBytes < actual_size + ft.1.size then
      emitLoop maxFiles maxBytes rest emitted actual_size
    else if (pyStrip ft.1.content).data.isEmpty then
      emitLoop maxFiles maxBytes rest emitted actual_size
    else emitLoop maxFiles maxBytes rest (emitted ++ [ft]) (actual_size + ft.1.size)

/-- The size-banded, tier-annotated candidate list (`sized_files` /
`tiered`). -/
def scanTiered (files : List FileEntry) (min_file_bytes max_file_kb : Nat) :
    List (FileEntry × Nat) :=
  ((files.filter (fun f => min_file_bytes ≤ f.size && f.size ≤ max_file_kb * 1024)).map
    (fun f => (f, get_file_tier f.parts)))

/-- Pass 1 of the selection. -/
def scanPass1 (files : List FileEntry)
    (max_files max_size_kb min_file_bytes max_file_kb tier_size_cap : Nat) :
    List (FileEntry × Nat) × Nat :=
  pass1Tiers max_files (max_size_kb * 1024) tier_size_cap
    (scanTiered files min_file_bytes max_file_kb) [1, 2, 3, 4, 5, 6, 7] ([], 0)

/-- The selection data of `get_source_files_content` (the returned string
is path-header templating over `emitted`; `total_size_kb` is
`round(actual_size/1024, 1)`). -/
structure ScanSelection where
  emitted : List (FileEntry × Nat)
  actual_size : Nat
  total_eligible : Nat
deriving Repr, DecidableEq

/-- `get_source_files_content` from core/scanner.py (selection core). -/
def get_source_files_content (files : List FileEntry)
    (max_files max_size_kb min_file_bytes max_file_kb tier_size_cap : Nat) :
    ScanSelection :=
  let max_bytes := max_size_kb * 1024
  let tiered := scanTiered files min_file_bytes max_file_kb
  let p1 := scanPass1 files max_files max_size_kb min_file_bytes max_file_kb tier_size_cap
  let p2 := pass2 max_files max_bytes tiered p1
  let finalSel := sortLt ltTierSize p2.1
  let e := emitLoop max_files max_bytes finalSel [] 0
  { emitted := e.1, actual_size := e.2, total_eligible := files.length }

end Conclave

namespace Conclave

/-! ## Specification helpers for the validator theorems -/

/-- The per-finding action of the `_apply_adjustments` loop, stats aside:
`none` means the finding is dropped from the list.  Note it depends only on
the adjustment looked up by the finding's id — not on the agent, and not on
the finding's severity. -/
def applyFinding (amap : String → Option Adjustment) (f : Finding) : Option Finding :=
  match amap f.id with
  | none => some f
  | some adj =>
    if strEq adj.decision "rejected" then none
    else if strEq adj.decision "downgraded" then
      some { f with original_severity := some f.severity,
                    severity := adj.adjusted_severity,
                    validated := some "downgraded",
                    validation_reason := some adj.reason }
    else some { f with validated := some "confirmed" }

/-- A finding whose id maps to a `rejected` adjustment. -/
def isRejectedMatch (amap : String → Option Adjustment) (f : Finding) : Bool :=
  match amap f.id with
  | some adj => strEq adj.decision "rejected"
  | none => false

/-- What re-application does to an already-adjusted finding: a second pass
over a downgraded finding overwrites `original_severity` with the (already
downgraded) current severity; everything else is untouched. -/
def reapplyFinding (amap : String → Option Adjustment) (f : Finding) : Finding :=
  match amap f.id with
  | none => f
  | some adj =>
    if strEq adj.decision "downgraded" then
      { f with original_severity := some f.severity }
    else f

/-! ### Concrete inputs used by the demonstrations, counterexamples and
witnesses below -/

/-- Two agents whose outputs happen to share the finding id `X-1`, one
HIGH, one LOW (outside the BLOCKER/HIGH worklist). -/
def afCross : AllFindings :=
  [("guardian", { findings := [{ id := "X-1", title := "a", severity := "HIGH" }],
                  summary := { high := 1, total := 1 } }),
   ("sentinel", { findings := [{ id := "X-1", title := "b", severity := "LOW" }],
                  summary := { low := 1, total := 1 } })]

/-- A single rejection for `X-1`. -/
def rejX : Adjustment :=
  { finding_id := "X-1", original_severity := "HIGH",
    adjusted_severity := "REJECTED", decision := "rejected", reason := "fp" }

/-- One HIGH finding, downgraded by the validator output `rawReval`. -/
def afReval : AllFindings :=
  [("g", { findings := [{ id := "A-1", title := "t", severity := "HIGH" }],
           summary := { high := 1, total := 1 } })]

/-- A fixed raw validator output that downgrades `A-1`. -/
def rawReval : String := "### VALIDATE: A-1 — HIGH -> MEDIUM"

/-- A worklist of one BLOCKER finding (paired below with a successful AI
response carrying no parseable adjustment block). -/
def afNoParse : AllFindings :=
  [("g", { findings := [{ id := "B-1", title := "t", severity := "BLOCKER" }],
           summary := { blockers := 1, total := 1 } })]

/-! ### Observables of the scanner selection -/

/-- Number of selected files of tier `t`. -/
def tierCount (t : Nat) (l : List (FileEntry × Nat)) : Nat :=
  l.countP (fun ft => ft.2 == t)

/-- Summed sizes of the selected files of tier `t`. -/
def tierBytes (t : Nat) (l : List (FileEntry × Nat)) : Nat :=
  sizeSum (l.filter (fun ft => ft.2 == t))

/-- The non-strict `(tier ascending, size descending)` order of the final
emission. -/
def tierSizeRel (a b : FileEntry × Nat) : Prop :=
  a.2 < b.2 ∨ (a.2 = b.2 ∧ b.1.size ≤ a.1.size)

/-! ### Helper lemmas about `_apply_adjustments` -/

@[simp]
theorem strEq_iff (a b : String) : strEq a b = true ↔ a = b := by
  unfold strEq
  simp [String.ext_iff]

@[simp]
theorem strEq_false_iff (a b : String) : strEq a b = false ↔ ¬ a = b := by
  rw [← Bool.not_eq_true, strEq_iff]

theorem applyToFindings_fst (amap : String → Option Adjustment) (st : Stats)
    (fs : List Finding) :
    (applyToFindings amap st fs).1 = fs.filterMap (applyFinding amap) := by
  induction fs generalizing st with
  | nil => simp [applyToFindings, List.filterMap]
  | cons f rest ih =>
    by_cases hm : (amap f.id).isSome
    · obtain ⟨adj, hadj⟩ := Option.isSome_iff_exists.mp hm
      by_cases hrej : strEq adj.decision "rejected"
      · simp [applyToFindings, applyFinding, hadj, hrej, ih]
      · by_cases hdg : strEq adj.decision "downgraded"
        · simp [applyToFindings, applyFinding, hadj, hrej, hdg, ih]
        · simp [applyToFindings, applyFinding, hadj, hrej, hdg, ih]
    · rw [Option.not_isSome_iff_eq_none] at hm
      simp [applyToFindings, applyFinding, hm, ih]

theorem applyAgents_fst (amap : String → Option Adjustment) (st : Stats)
    (af : AllFindings) :
    (applyAgents amap af st).1
      = af.map (fun a => (a.1,
          { findings := a.2.findings.filterMap (applyFinding amap),
            summary :=
              recalcSummary (a.2.findings.filterMap (applyFinding amap)) })) := by
  induction af generalizing st with
  | nil => simp [applyAgents]
  | cons a rest ih =>
    simp [applyAgents, applyToFindings_fst, ih]

theorem apply_adjustments_char (af : AllFindings) (adjustments : List Adjustment) :
    (apply_adjustments af adjustments).1
      = af.map (fun a => (a.1,
          { findings := a.2.findings.filterMap (applyFinding (adjustment_map adjustments)),
            summary :=
              recalcSummary
                (a.2.findings.filterMap (applyFinding (adjustment_map adjustments))) })) := by
  unfold apply_adjustments
  exact applyAgents_fst _ _ _

theorem recalcSummary_foldl (s : Summary) (fs : List Finding) :
    fs.foldl recalcStep s
      = { blockers := s.blockers + fs.countP (fun f => strEq (upperStr f.severity) "BLOCKER"),
          high := s.high + fs.countP (fun f => strEq (upperStr f.severity) "HIGH"),
          medium := s.medium + fs.countP (fun f => strEq (upperStr f.severity) "MEDIUM"),
          low := s.low + fs.countP (fun f => strEq (upperStr f.severity) "LOW"),
          total := s.total + fs.length } := by
  induction fs generalizing s with
  | nil => simp
  | cons f rest ih =>
    by_cases hb : upperStr f.severity = "BLOCKER"
    · simp [List.foldl_cons, ih, recalcStep, hb, List.countP_cons, Summary.mk.injEq]
      and_intros <;> omega
    · by_cases hh : upperStr f.severity = "HIGH"
      · simp [List.foldl_cons, ih, recalcStep, hb, hh, List.countP_cons, Summary.mk.injEq]
        and_intros <;> omega
      · by_cases hm : upperStr f.severity = "MEDIUM"
        · simp [List.foldl_cons, ih, recalcStep, hb, hh, hm, List.countP_cons,
            Summary.mk.injEq]
          and_intros <;> omega
        · by_cases hl : upperStr f.severity = "LOW"
          · simp [List.foldl_cons, ih, recalcStep, hb, hh, hm, hl, List.countP_cons,
              Summary.mk.injEq]
            omega
          · simp [List.foldl_cons, ih, recalcStep, hb, hh, hm, hl, List.countP_cons,
              Summary.mk.injEq]
            omega

theorem recalcSummary_counts (fs : List Finding) :
    recalcSummary fs
      = { blockers := fs.countP (fun f => strEq (upperStr f.severity) "BLOCKER"),
          high := fs.countP (fun f => strEq (upperStr f.severity) "HIGH"),
          medium := fs.countP (fun f => strEq (upperStr f.severity) "MEDIUM"),
          low := fs.countP (fun f => strEq (upperStr f.severity) "LOW"),
          total := fs.length } := by
  unfold recalcSummary
  rw [recalcSummary_foldl]
  simp

/-! ## Claim theorems: synthesis and tiering -/

/-- C1: `calculate_verdict` returns HOLD iff the summed blockers are > 0,
CONDITIONAL iff blockers = 0 and summed highs > 3, SHIP otherwise; and
`get_exit_code` maps SHIP to 0, CONDITIONAL to 2, HOLD to 1. -/
theorem calculate_verdict_and_exit_code_spec
    (m : List (String × Option Summary)) :
    (calculate_verdict m = .HOLD ↔ sumBlockers m > 0)
    ∧ (calculate_verdict m = .CONDITIONAL ↔ sumBlockers m = 0 ∧ sumHigh m > 3)
    ∧ (calculate_verdict m = .SHIP ↔ sumBlockers m = 0 ∧ sumHigh m ≤ 3)
    ∧ get_exit_code .SHIP = 0
    ∧ get_exit_code .CONDITIONAL = 2
    ∧ get_exit_code .HOLD = 1 := by
  by_cases hb : sumBlockers m > 0
  · simp [calculate_verdict, get_exit_code, hb]
    omega
  · by_cases hh : sumHigh m > 3
    · simp [calculate_verdict, get_exit_code, hb, hh]
      omega
    · simp [calculate_verdict, get_exit_code, hb, hh]
      omega

/-! ## Claim theorems: findings parser and validator -/

theorem buildFindings_eq (content : List Char) (ranges : List (Nat × Nat))
    (ms : List RMatch) :
    buildFindings content ranges ms
      = (ms.filter (fun m => !(in_code_block m.start ranges))).map (mkFinding content) := by
  induction ms with
  | nil => simp [buildFindings]
  | cons m rest ih =>
    by_cases h : in_code_block m.start ranges
    · simp [buildFindings, h, ih]
    · simp [buildFindings, h, ih]

/-- C2: the parser's summary counts agree with the findings list, and after
applying any adjustment list every agent's recomputed summary again counts
exactly the remaining findings. -/
theorem summary_consistency :
    (∀ content : String,
        (parse_findings_markdown content).summary.total
            = (parse_findings_markdown content).findings.length
        ∧ (parse_findings_markdown content).summary.blockers
            = (parse_findings_markdown content).findings.countP
                (fun f => f.severity = "BLOCKER")
        ∧ (parse_findings_markdown content).summary.high
            = (parse_findings_markdown content).findings.countP
                (fun f => f.severity = "HIGH")
        ∧ (parse_findings_markdown content).summary.medium
            = (parse_findings_markdown content).findings.countP
                (fun f => f.severity = "MEDIUM")
        ∧ (parse_findings_markdown content).summary.low
            = (parse_findings_markdown content).findings.countP
                (fun f => f.severity = "LOW"))
    ∧ (∀ (af : AllFindings) (adjustments : List Adjustment) (k : String)
          (ad : AgentData), (k, ad) ∈ (apply_adjustments af adjustments).1 →
        ad.summary.total = ad.findings.length
        ∧ ad.summary.blockers
            = ad.findings.countP (fun f => strEq (upperStr f.severity) "BLOCKER")
        ∧ ad.summary.high
            = ad.findings.countP (fun f => strEq (upperStr f.severity) "HIGH")
        ∧ ad.summary.medium
            = ad.findings.countP (fun f => strEq (upperStr f.severity) "MEDIUM")
        ∧ ad.summary.low
            = ad.findings.countP (fun f => strEq (upperStr f.severity) "LOW")) := by
  constructor
  · intro content
    simp [parse_findings_markdown]
  · intro af adjustments k ad hmem
    rw [apply_adjustments_char] at hmem
    obtain ⟨a, _, heq⟩ := List.mem_map.mp hmem
    have had : ad
        = { findings := a.2.findings.filterMap (applyFinding (adjustment_map adjustments)),
            summary := recalcSummary
              (a.2.findings.filterMap (applyFinding (adjustment_map adjustments))) } := by
      have := congrArg Prod.snd heq
      simpa using this.symm
    subst had
    simp [recalcSummary_counts]

/-- C2 witness: the theorem instantiated at a concrete agent map and
adjustment list. -/
theorem summary_consistency_witness :
    ("g", ({ findings := [], summary := {} } : AgentData))
        ∈ (apply_adjustments [("g", { findings := [], summary := {} })] []).1
    ∧ (({ findings := [], summary := {} } : AgentData).summary.total
        = ({ findings := [], summary := {} } : AgentData).findings.length) := by
  refine ⟨by decide, ?_⟩
  exact (summary_consistency.2 [("g", { findings := [], summary := {} })] [] "g"
    { findings := [], summary := {} } (by decide)).1

/-- C3: a finding heading match whose start offset lies inside a fenced
code-block span is discarded, and one outside every span is kept: the
parsed findings list is exactly the image of the heading matches that fall
outside all code-block spans. -/
theorem code_block_exclusion (content : String) :
    (parse_findings_markdown content).findings
      = ((reFindAll headingPat content.data).filter
          (fun m => !(in_code_block m.start (get_code_block_ranges content.data)))).map
          (mkFinding content.data) := by
  simp [parse_findings_markdown, buildFindings_eq]

theorem filterMap_applyFinding_length (amap : String → Option Adjustment)
    (fs : List Finding) :
    (fs.filterMap (applyFinding amap)).length
        + fs.countP (fun f => isRejectedMatch amap f) = fs.length := by
  induction fs with
  | nil => simp
  | cons f rest ih =>
    rw [List.countP_cons]
    cases hadj : amap f.id with
    | none =>
      have h0 : isRejectedMatch amap f = false := by simp [isRejectedMatch, hadj]
      have h1 : applyFinding amap f = some f := by simp [applyFinding, hadj]
      simp [List.filterMap_cons, h1, h0]
      omega
    | some adj =>
      by_cases hrej : adj.decision = "rejected"
      · have h0 : isRejectedMatch amap f = true := by
          simp [isRejectedMatch, hadj, hrej]
        have h1 : applyFinding amap f = none := by simp [applyFinding, hadj, hrej]
        simp [List.filterMap_cons, h1, h0]
        omega
      · have h0 : isRejectedMatch amap f = false := by
          simp [isRejectedMatch, hadj, hrej]
        have h1 : (applyFinding amap f).isSome = true := by
          by_cases hdg : adj.decision = "downgraded" <;>
            simp [applyFinding, hadj, hrej, hdg]
        obtain ⟨g, hg⟩ := Option.isSome_iff_exists.mp h1
        simp [List.filterMap_cons, hg, h0]
        omega

/-- C4: applying adjustments drops exactly the findings whose matching
adjustment is `rejected` (they are not retained at any severity), the
recomputed summary counts only the remaining findings, and the new total
is the old finding count minus the number of rejected matches. -/
theorem rejected_findings_removed (af : AllFindings) (adjustments : List Adjustment) :
    ((apply_adjustments af adjustments).1
        = af.map (fun a => (a.1,
            { findings :=
                a.2.findings.filterMap (applyFinding (adjustment_map adjustments)),
              summary := recalcSummary
                (a.2.findings.filterMap (applyFinding (adjustment_map adjustments))) })))
    ∧ (∀ f : Finding, isRejectedMatch (adjustment_map adjustments) f = true →
        applyFinding (adjustment_map adjustments) f = none)
    ∧ (∀ f : Finding, isRejectedMatch (adjustment_map adjustments) f = false →
        (applyFinding (adjustment_map adjustments) f).isSome = true)
    ∧ (∀ fs : List Finding,
        (recalcSummary (fs.filterMap (applyFinding (adjustment_map adjustments)))).total
            + fs.countP (fun f => isRejectedMatch (adjustment_map adjustments) f)
          = fs.length) := by
  refine ⟨apply_adjustments_char af adjustments, ?_, ?_, ?_⟩
  · intro f h
    unfold isRejectedMatch at h
    cases hadj : adjustment_map adjustments f.id with
    | none => rw [hadj] at h; simp at h
    | some adj =>
      rw [hadj] at h
      simp only [strEq_iff, decide_eq_true_eq] at h
      simp [applyFinding, hadj, h]
  · intro f h
    unfold isRejectedMatch at h
    cases hadj : adjustment_map adjustments f.id with
    | none => simp [applyFinding, hadj]
    | some adj =>
      rw [hadj] at h
      simp only [strEq_iff, decide_eq_true_eq] at h
      by_cases hdg : adj.decision = "downgraded" <;>
        simp [applyFinding, hadj, h, hdg]
  · intro fs
    rw [recalcSummary_counts]
    exact filterMap_applyFinding_length _ fs

/-- C4 witness: a rejected match is removed and the total drops by one at a
concrete input. -/
theorem rejected_findings_removed_witness :
    applyFinding
        (adjustment_map [{ finding_id := "G-1", original_severity := "HIGH",
                           adjusted_severity := "REJECTED", decision := "rejected",
                           reason := "" }])
        { id := "G-1", title := "t", severity := "HIGH" } = none := by
  exact (rejected_findings_removed []
      [{ finding_id := "G-1", original_severity := "HIGH",
         adjusted_severity := "REJECTED", decision := "rejected",
         reason := "" }]).2.1
    { id := "G-1", title := "t", severity := "HIGH" } (by decide)

/-! ### C10: adjustments are matched by finding id alone -/

/-- C10 (implicit claim): `_apply_adjustments` matches adjustments to
findings solely by `finding_id` — the per-finding action `applyFinding`
takes no agent and no severity filter, every agent's list is transformed by
the same function, a rejected id is dropped regardless of the finding's
severity, and concretely one rejection for `X-1` deletes both agents'
`X-1` findings (the LOW one included) while being counted twice in the
stats. -/
theorem adjustments_matched_by_id_only (af : AllFindings)
    (adjustments : List Adjustment) :
    ((apply_adjustments af adjustments).1
        = af.map (fun a => (a.1,
            { findings :=
                a.2.findings.filterMap (applyFinding (adjustment_map adjustments)),
              summary := recalcSummary
                (a.2.findings.filterMap (applyFinding (adjustment_map adjustments))) })))
    ∧ (∀ (f : Finding) (adj : Adjustment),
        adjustment_map adjustments f.id = some adj → adj.decision = "rejected" →
        applyFinding (adjustment_map adjustments) f = none)
    ∧ (apply_adjustments afCross [rejX]).1
        = [("guardian", { findings := [], summary := {} }),
           ("sentinel", { findings := [], summary := {} })]
    ∧ (apply_adjustments afCross [rejX]).2.rejected = 2 := by
  refine ⟨apply_adjustments_char af adjustments, ?_, by decide, by decide⟩
  intro f adj hadj hrej
  simp [applyFinding, hadj, hrej]

/-- C10 witness: the rejection hypothesis discharged at a concrete MEDIUM
finding. -/
theorem adjustments_matched_by_id_only_witness :
    applyFinding (adjustment_map [rejX])
        { id := "X-1", title := "m", severity := "MEDIUM" } = none := by
  exact (adjustments_matched_by_id_only [] [rejX]).2.1
    { id := "X-1", title := "m", severity := "MEDIUM" } rejX (by decide) (by decide)

/-! ### C6: re-running validation with the same raw output -/

theorem applyFinding_of_applyFinding (amap : String → Option Adjustment)
    (f g : Finding) (h : applyFinding amap f = some g) :
    applyFinding amap g = some (reapplyFinding amap g) := by
  unfold applyFinding at h
  cases hadj : amap f.id with
  | none =>
    rw [hadj] at h
    simp at h
    subst h
    simp [applyFinding, reapplyFinding, hadj]
  | some adj =>
    rw [hadj] at h
    by_cases hrej : adj.decision = "rejected"
    · simp [hrej] at h
    · by_cases hdg : adj.decision = "downgraded"
      · simp [hrej, hdg] at h
        subst h
        simp [applyFinding, reapplyFinding, hadj, hrej, hdg]
      · simp [hrej, hdg] at h
        subst h
        simp [applyFinding, reapplyFinding, hadj, hrej, hdg]

theorem filterMap_eq_map_of_some (h : α → Option α) (r : α → α) (l : List α)
    (hl : ∀ g ∈ l, h g = some (r g)) :
    l.filterMap h = l.map r := by
  induction l with
  | nil => simp
  | cons x xs ih =>
    rw [List.filterMap_cons, hl x (List.mem_cons_self x xs)]
    simp [ih (fun g hg => hl g (List.mem_cons_of_mem x hg))]

theorem reapplyFinding_severity (amap : String → Option Adjustment) (g : Finding) :
    (reapplyFinding amap g).severity = g.severity := by
  unfold reapplyFinding
  cases amap g.id with
  | none => rfl
  | some adj => by_cases hdg : adj.decision = "downgraded" <;> simp [hdg]

theorem recalcSummary_map_reapply (amap : String → Option Adjustment)
    (l : List Finding) :
    recalcSummary (l.map (reapplyFinding amap)) = recalcSummary l := by
  rw [recalcSummary_counts, recalcSummary_counts]
  simp [List.countP_map, Function.comp_def, reapplyFinding_severity]

theorem filterMap_applyFinding_twice (amap : String → Option Adjustment)
    (fs : List Finding) :
    (fs.filterMap (applyFinding amap)).filterMap (applyFinding amap)
      = (fs.filterMap (applyFinding amap)).map (reapplyFinding amap) := by
  apply filterMap_eq_map_of_some
  intro g hg
  obtain ⟨f, _, hf⟩ := List.mem_filterMap.mp hg
  exact applyFinding_of_applyFinding amap f g hf

/-- C6 (amended): applying the same parsed adjustments a second time
reproduces the once-adjusted state except that each downgraded finding's
`original_severity` is overwritten with its current (already downgraded)
severity; findings membership, severities and summaries are preserved. -/
theorem revalidation_second_pass (af : AllFindings) (raw : String) :
    (apply_adjustments
        (apply_adjustments af (parse_validation_results raw)).1
        (parse_validation_results raw)).1
      = ((apply_adjustments af (parse_validation_results raw)).1).map
          (fun a => (a.1,
            { findings := a.2.findings.map
                (reapplyFinding (adjustment_map (parse_validation_results raw))),
              summary := a.2.summary })) := by
  rw [apply_adjustments_char, apply_adjustments_char]
  rw [List.map_map, List.map_map]
  apply List.map_congr_left
  intro a _
  simp only [Function.comp_apply, Prod.mk.injEq, AgentData.mk.injEq, true_and]
  refine ⟨?_, ?_⟩
  · exact filterMap_applyFinding_twice _ _
  · rw [filterMap_applyFinding_twice, recalcSummary_map_reapply]

/-- C6 counterexample: applying the parsed adjustments of `rawReval` twice
does not reproduce the once-adjusted end state (the downgraded finding's
`original_severity` drifts from HIGH to MEDIUM). -/
theorem revalidation_not_idempotent :
    (apply_adjustments
        (apply_adjustments afReval (parse_validation_results rawReval)).1
        (parse_validation_results rawReval)).1
      ≠ (apply_adjustments afReval (parse_validation_results rawReval)).1 := by
  decide

/-! ### C5: validator failure / unparseable output -/

theorem adjustment_map_nil (fid : String) : adjustment_map [] fid = none := rfl

theorem applyToFindings_nil_adj (st : Stats) (fs : List Finding) :
    applyToFindings (adjustment_map []) st fs = (fs, st) := by
  induction fs with
  | nil => rfl
  | cons f rest ih => simp [applyToFindings, adjustment_map_nil, ih]

theorem applyAgents_nil_adj (af : AllFindings) (st : Stats) :
    applyAgents (adjustment_map []) af st
      = (af.map (fun a => (a.1,
          { findings := a.2.findings, summary := recalcSummary a.2.findings })), st) := by
  induction af with
  | nil => rfl
  | cons a rest ih => simp [applyAgents, applyToFindings_nil_adj, ih]

/-- C5 (amended): if the AI call fails, `run_validator` returns the
findings untouched and stats marking every worklist item implicitly
confirmed; if the call succeeds but parses to zero adjustment blocks, every
agent's findings list is also unchanged (summaries are recomputed), but the
stats report zero confirmations (`confirmed = downgraded = rejected =
total = 0`) rather than implicit confirmation of the worklist. -/
theorem run_validator_degraded_modes (af : AllFindings) (result : CompletionResult) :
    (result.success = false → collect_high_severity_findings af ≠ [] →
        run_validator af result false
          = (af, { confirmed := (collect_high_severity_findings af).length,
                   downgraded := 0, rejected := 0,
                   total := (collect_high_severity_findings af).length }))
    ∧ (result.success = true →
        parse_validation_results (result.content.getD "") = [] →
        ((run_validator af result false).1.map (fun a => (a.1, a.2.findings))
            = af.map (fun a => (a.1, a.2.findings)))
        ∧ (run_validator af result false).2
            = { confirmed := 0, downgraded := 0, rejected := 0, total := 0 }) := by
  constructor
  · intro hfail hne
    have hempty : (collect_high_severity_findings af).isEmpty = false := by
      cases h : collect_high_severity_findings af with
      | nil => exact absurd h hne
      | cons a l => rfl
    simp [run_validator, hempty, hfail]
  · intro hsucc hparse
    by_cases hempty : (collect_high_severity_findings af).isEmpty
    · simp [run_validator, hempty]
    · simp only [run_validator, hempty, hsucc, Bool.not_true, if_false,
        Bool.false_eq_true, if_true]
      rw [hparse]
      unfold apply_adjustments
      rw [applyAgents_nil_adj]
      constructor
      · rw [List.map_map]
        apply List.map_congr_left
        intro a _
        rfl
      · rfl

/-- C5 witness: both degraded modes instantiated concretely — a failed
call on a one-BLOCKER map, and an empty-parse success on the empty map. -/
theorem run_validator_degraded_modes_witness :
    (run_validator
        [("g", { findings := [{ id := "B-1", title := "t", severity := "BLOCKER" }],
                 summary := { blockers := 1, total := 1 } })]
        { success := false, error := some "boom" } false
      = ([("g", { findings := [{ id := "B-1", title := "t", severity := "BLOCKER" }],
                  summary := { blockers := 1, total := 1 } })],
         { confirmed := 1, downgraded := 0, rejected := 0, total := 1 }))
    ∧ ((run_validator [] { success := true, content := some "" } false).2
        = { confirmed := 0, downgraded := 0, rejected := 0, total := 0 }) := by
  constructor
  · have h := (run_validator_degraded_modes
        [("g", { findings := [{ id := "B-1", title := "t", severity := "BLOCKER" }],
                 summary := { blockers := 1, total := 1 } })]
        { success := false, error := some "boom" }).1 (by decide) (by decide)
    rw [h]
    decide
  · exact ((run_validator_degraded_modes []
        { success := true, content := some "" }).2 (by decide) (by decide)).2

/-- C5 counterexample: on a successful call whose output parses to zero
adjustments, the stats do NOT report the worklist as implicitly confirmed —
`confirmed` is 0 while the worklist has one item. -/
theorem run_validator_noop_stats_counterexample :
    (collect_high_severity_findings afNoParse).length = 1
    ∧ (run_validator afNoParse
        { success := true, content := some "no adjustment blocks here" }
        false).2.confirmed = 0 := by
  decide

/-! ### C8: scanner selection bounds -/

theorem mem_insertLt (lt : α → α → Bool) (x a : α) (l : List α) :
    a ∈ insertLt lt x l ↔ a = x ∨ a ∈ l := by
  induction l with
  | nil => simp [insertLt]
  | cons y ys ih =>
    by_cases h : lt y x
    · simp only [insertLt, if_pos h, List.mem_cons, ih]
      tauto
    · simp only [insertLt, if_neg h, List.mem_cons]

theorem mem_sortLt (lt : α → α → Bool) (a : α) (l : List α) :
    a ∈ sortLt lt l ↔ a ∈ l := by
  induction l with
  | nil => simp [sortLt]
  | cons x xs ih => simp [sortLt, mem_insertLt, ih]

theorem pairwise_insertLt (lt : α → α → Bool) (R : α → α → Prop)
    (hLt : ∀ a b, lt a b = true → R a b)
    (hTot : ∀ a b, lt a b = false → R b a)
    (hTrans : ∀ a b c, R a b → R b c → R a c)
    (x : α) (l : List α) (hl : l.Pairwise R) :
    (insertLt lt x l).Pairwise R := by
  induction l with
  | nil => simp [insertLt]
  | cons y ys ih =>
    rcases List.pairwise_cons.mp hl with ⟨hy, hys⟩
    by_cases h : lt y x
    · rw [insertLt, if_pos h]
      refine List.pairwise_cons.mpr ⟨?_, ih hys⟩
      intro z hz
      rcases (mem_insertLt lt x z ys).mp hz with hzx | hzys
      · exact hzx ▸ hLt y x h
      · exact hy z hzys
    · rw [insertLt, if_neg h]
      refine List.pairwise_cons.mpr ⟨?_, hl⟩
      intro z hz
      rcases List.mem_cons.mp hz with hzy | hzys
      · exact hzy ▸ hTot y x (Bool.not_eq_true _ ▸ h)
      · exact hTrans x y z (hTot y x (Bool.not_eq_true _ ▸ h)) (hy z hzys)

theorem pairwise_sortLt (lt : α → α → Bool) (R : α → α → Prop)
    (hLt : ∀ a b, lt a b = true → R a b)
    (hTot : ∀ a b, lt a b = false → R b a)
    (hTrans : ∀ a b c, R a b → R b c → R a c)
    (l : List α) : (sortLt lt l).Pairwise R := by
  induction l with
  | nil => simp [sortLt]
  | cons x xs ih => exact pairwise_insertLt lt R hLt hTot hTrans x _ ih

theorem sortLt_tierSize_pairwise (l : List (FileEntry × Nat)) :
    (sortLt ltTierSize l).Pairwise tierSizeRel := by
  apply pairwise_sortLt
  · intro a b h
    unfold ltTierSize at h
    simp only [Bool.or_eq_true, Bool.and_eq_true, beq_iff_eq,
      decide_eq_true_eq] at h
    unfold tierSizeRel
    omega
  · intro a b h
    unfold ltTierSize at h
    simp only [Bool.or_eq_false_iff, Bool.and_eq_false_iff, beq_iff_eq,
      beq_eq_false_iff_ne, ne_eq, decide_eq_false_iff_not, Nat.not_lt] at h
    unfold tierSizeRel
    omega
  · intro a b c hab hbc
    unfold tierSizeRel at hab hbc ⊢
    omega

theorem sizeSum_nil : sizeSum [] = 0 := rfl

theorem sizeSum_cons (ft : FileEntry × Nat) (l : List (FileEntry × Nat)) :
    sizeSum (ft :: l) = ft.1.size + sizeSum l := by
  simp [sizeSum]

theorem sizeSum_append (a b : List (FileEntry × Nat)) :
    sizeSum (a ++ b) = sizeSum a + sizeSum b := by
  simp [sizeSum]

theorem pass1Tier_spec (mf mb cap fcap : Nat) (group : List (FileEntry × Nat)) :
    ∀ (sel : List (FileEntry × Nat)) (tot tc tsz : Nat),
    tc ≤ fcap → sel.length ≤ mf → tot ≤ mb → tsz ≤ cap →
    ∃ added,
      pass1Tier mf mb cap fcap group sel tot tc tsz = (sel ++ added, tot + sizeSum added)
      ∧ added.length + tc ≤ fcap
      ∧ tsz + sizeSum added ≤ cap
      ∧ (sel ++ added).length ≤ mf
      ∧ tot + sizeSum added ≤ mb
      ∧ ∀ ft ∈ added, ft ∈ group := by
  induction group with
  | nil =>
    intro sel tot tc tsz htc hsel htot htsz
    refine ⟨[], ?_, ?_, ?_, ?_, ?_, ?_⟩ <;>
      simp [pass1Tier, sizeSum_nil] <;> omega
  | cons ft rest ih =>
    intro sel tot tc tsz htc hsel htot htsz
    by_cases h1 : fcap ≤ tc
    · refine ⟨[], ?_, ?_, ?_, ?_, ?_, ?_⟩ <;>
        simp [pass1Tier, h1, sizeSum_nil] <;> omega
    · by_cases h2 : mf ≤ sel.length
      · refine ⟨[], ?_, ?_, ?_, ?_, ?_, ?_⟩ <;>
          simp [pass1Tier, h1, h2, sizeSum_nil] <;> omega
      · by_cases h3 : mb < tot + ft.1.size
        · obtain ⟨added, heq, hc, hz, hl, hb, hm⟩ :=
            ih sel tot tc tsz htc hsel htot htsz
          refine ⟨added, ?_, hc, hz, hl, hb,
            fun g hg => List.mem_cons_of_mem ft (hm g hg)⟩
          rw [pass1Tier, if_neg (by omega), if_neg (by omega), if_pos h3]
          exact heq
        · by_cases h4 : cap < tsz + ft.1.size
          · obtain ⟨added, heq, hc, hz, hl, hb, hm⟩ :=
              ih sel tot tc tsz htc hsel htot htsz
            refine ⟨added, ?_, hc, hz, hl, hb,
              fun g hg => List.mem_cons_of_mem ft (hm g hg)⟩
            rw [pass1Tier, if_neg (by omega), if_neg (by omega),
              if_neg (by omega), if_pos h4]
            exact heq
          · obtain ⟨added, heq, hc, hz, hl, hb, hm⟩ :=
              ih (sel ++ [ft]) (tot + ft.1.size) (tc + 1) (tsz + ft.1.size)
                (by omega) (by simp; omega) (by omega) (by omega)
            refine ⟨ft :: added, ?_, ?_, ?_, ?_, ?_, ?_⟩
            · rw [pass1Tier, if_neg (by omega), if_neg (by omega),
                if_neg (by omega), if_neg (by omega), heq]
              simp only [Prod.mk.injEq, List.append_assoc, List.singleton_append,
                sizeSum_cons, true_and]
              omega
            · rw [List.length_cons]
              omega
            · rw [sizeSum_cons]
              omega
            · simp only [List.length_append, List.length_cons,
                List.length_singleton] at hl ⊢
              omega
            · rw [sizeSum_cons]
              omega
            · intro g hg
              rcases List.mem_cons.mp hg with hgf | hga
              · exact hgf ▸ List.mem_cons_self ft rest
              · exact List.mem_cons_of_mem ft (hm g hga)

theorem tierCount_append (t : Nat) (a b : List (FileEntry × Nat)) :
    tierCount t (a ++ b) = tierCount t a + tierCount t b := by
  simp [tierCount, List.countP_append]

theorem tierBytes_append (t : Nat) (a b : List (FileEntry × Nat)) :
    tierBytes t (a ++ b) = tierBytes t a + tierBytes t b := by
  simp [tierBytes, List.filter_append, sizeSum_append]

theorem pass1Tiers_spec (mf mb cap : Nat) (tiered : List (FileEntry × Nat)) :
    ∀ (ts : List Nat), ts.Nodup →
    ∀ (sel : List (FileEntry × Nat)) (tot : Nat),
    sel.length ≤ mf → tot ≤ mb →
    (pass1Tiers mf mb cap tiered ts (sel, tot)).1.length ≤ mf
    ∧ (pass1Tiers mf mb cap tiered ts (sel, tot)).2 ≤ mb
    ∧ (∀ t, tierCount t (pass1Tiers mf mb cap tiered ts (sel, tot)).1
          ≤ tierCount t sel + (if t ∈ ts then tier_file_cap t else 0))
    ∧ (∀ t, tierBytes t (pass1Tiers mf mb cap tiered ts (sel, tot)).1
          ≤ tierBytes t sel + (if t ∈ ts then cap else 0)) := by
  intro ts
  induction ts with
  | nil =>
    intro _ sel tot hsel htot
    refine ⟨hsel, htot, fun t => ?_, fun t => ?_⟩ <;> simp [pass1Tiers]
  | cons t ts ih =>
    intro hnd sel tot hsel htot
    have hnotmem : t ∉ ts := (List.nodup_cons.mp hnd).1
    have hndts : ts.Nodup := (List.nodup_cons.mp hnd).2
    obtain ⟨added, heq, hc, hz, hl, hb, hmem⟩ :=
      pass1Tier_spec mf mb cap (tier_file_cap t)
        (sortLt ltSizeDesc (tiered.filter (fun ft => ft.2 == t)))
        sel tot 0 0 (Nat.zero_le _) hsel htot (Nat.zero_le _)
    have htier : ∀ g ∈ added, g.2 = t := by
      intro g hg
      have := hmem g hg
      rw [mem_sortLt] at this
      have := List.of_mem_filter this
      simpa using this
    have hstep : pass1Tiers mf mb cap tiered (t :: ts) (sel, tot)
        = pass1Tiers mf mb cap tiered ts (sel ++ added, tot + sizeSum added) := by
      rw [pass1Tiers, heq]
    obtain ⟨ih1, ih2, ih3, ih4⟩ :=
      ih hndts (sel ++ added) (tot + sizeSum added) hl hb
    refine ⟨by rw [hstep]; exact ih1, by rw [hstep]; exact ih2,
      fun t' => ?_, fun t' => ?_⟩
    · rw [hstep]
      refine (ih3 t').trans ?_
      rw [tierCount_append]
      by_cases het : t' = t
      · subst het
        have h1 : tierCount t' added ≤ added.length := by
          simpa [tierCount] using List.countP_le_length _
        rw [if_neg hnotmem, if_pos (List.mem_cons_self t' ts)]
        omega
      · have h0 : tierCount t' added = 0 := by
          simp only [tierCount, List.countP_eq_zero]
          intro g hg
          simp only [htier g hg, beq_iff_eq, decide_eq_true_eq]
          exact fun hh => het hh.symm
        have hmemiff : (t' ∈ t :: ts) ↔ (t' ∈ ts) := by
          simp [List.mem_cons, het]
        rw [h0, if_congr hmemiff rfl rfl]
        omega
    · rw [hstep]
      refine (ih4 t').trans ?_
      rw [tierBytes_append]
      by_cases het : t' = t
      · subst het
        have h1 : tierBytes t' added ≤ sizeSum added := by
          have hfe : added.filter (fun ft => ft.2 == t') = added :=
            List.filter_eq_self.mpr (fun g hg => by simp [htier g hg])
          simp [tierBytes, hfe]
        rw [if_neg hnotmem, if_pos (List.mem_cons_self t' ts)]
        omega
      · have h0 : tierBytes t' added = 0 := by
          have hfe : added.filter (fun ft => ft.2 == t') = [] := by
            rw [List.filter_eq_nil_iff]
            intro g hg
            simp only [htier g hg, beq_iff_eq, decide_eq_true_eq]
            exact fun hh => het hh.symm
          simp [tierBytes, hfe, sizeSum_nil]
        have hmemiff : (t' ∈ t :: ts) ↔ (t' ∈ ts) := by
          simp [List.mem_cons, het]
        rw [h0, if_congr hmemiff rfl rfl]
        omega

theorem emitLoop_spec (mf mb : Nat) :
    ∀ (l emitted : List (FileEntry × Nat)) (actual : Nat),
    emitted.length ≤ mf → actual ≤ mb →
    ∃ added,
      emitLoop mf mb l emitted actual = (emitted ++ added, actual + sizeSum added)
      ∧ List.Sublist added l
      ∧ (emitted ++ added).length ≤ mf
      ∧ actual + sizeSum added ≤ mb := by
  intro l
  induction l with
  | nil =>
    intro emitted actual hemit hact
    refine ⟨[], ?_, List.Sublist.refl _, ?_, ?_⟩ <;>
      simp [emitLoop, sizeSum_nil] <;> omega
  | cons ft rest ih =>
    intro emitted actual hemit hact
    by_cases h1 : mf ≤ emitted.length
    · refine ⟨[], ?_, List.nil_sublist _, ?_, ?_⟩ <;>
        simp [emitLoop, h1, sizeSum_nil] <;> omega
    · by_cases h2 : mb < actual + ft.1.size
      · obtain ⟨added, heq, hsub, hlen, hsz⟩ := ih emitted actual hemit hact
        refine ⟨added, ?_, hsub.cons ft, hlen, hsz⟩
        rw [emitLoop, if_neg h1, if_pos h2]
        exact heq
      · by_cases h3 : (pyStrip ft.1.content).data.isEmpty
        · obtain ⟨added, heq, hsub, hlen, hsz⟩ := ih emitted actual hemit hact
          refine ⟨added, ?_, hsub.cons ft, hlen, hsz⟩
          rw [emitLoop, if_neg h1, if_neg h2, if_pos h3]
          exact heq
        · obtain ⟨added, heq, hsub, hlen, hsz⟩ :=
            ih (emitted ++ [ft]) (actual + ft.1.size) (by simp; omega) (by omega)
          refine ⟨ft :: added, ?_, hsub.cons₂ ft, ?_, ?_⟩
          · rw [emitLoop, if_neg h1, if_neg h2, if_neg h3, heq]
            simp only [Prod.mk.injEq, List.append_assoc, List.singleton_append,
              sizeSum_cons, true_and]
            omega
          · simp only [List.length_append, List.length_cons,
              List.length_singleton] at hlen ⊢
            omega
          · rw [sizeSum_cons]
            omega

/-- C8: the scanner selection respects all its budgets — at most
`max_files` files are emitted and their summed sizes stay within the
`max_size_kb` byte budget; pass 1 (walking tiers 1–7) keeps the global
file-count and byte budgets and respects every tier's file-count cap and
per-tier byte cap (the `tier_size_cap` parameter stands for the source's
`int(max_bytes * 0.30)`); and the emission order is sorted by
`(tier ascending, size descending)`. -/
theorem scanner_two_pass_bounds (files : List FileEntry)
    (max_files max_size_kb min_file_bytes max_file_kb tier_size_cap : Nat) :
    (get_source_files_content files max_files max_size_kb min_file_bytes
        max_file_kb tier_size_cap).emitted.length ≤ max_files
    ∧ (get_source_files_content files max_files max_size_kb min_file_bytes
        max_file_kb tier_size_cap).actual_size
        = sizeSum (get_source_files_content files max_files max_size_kb
            min_file_bytes max_file_kb tier_size_cap).emitted
    ∧ (get_source_files_content files max_files max_size_kb min_file_bytes
        max_file_kb tier_size_cap).actual_size ≤ max_size_kb * 1024
    ∧ (scanPass1 files max_files max_size_kb min_file_bytes max_file_kb
        tier_size_cap).1.length ≤ max_files
    ∧ (scanPass1 files max_files max_size_kb min_file_bytes max_file_kb
        tier_size_cap).2 ≤ max_size_kb * 1024
    ∧ (∀ t, tierCount t (scanPass1 files max_files max_size_kb min_file_bytes
        max_file_kb tier_size_cap).1 ≤ tier_file_cap t)
    ∧ (∀ t, tierBytes t (scanPass1 files max_files max_size_kb min_file_bytes
        max_file_kb tier_size_cap).1 ≤ tier_size_cap)
    ∧ (get_source_files_content files max_files max_size_kb min_file_bytes
        max_file_kb tier_size_cap).emitted.Pairwise tierSizeRel := by
  obtain ⟨added, heq, hsub, hlen, hsz⟩ :=
    emitLoop_spec max_files (max_size_kb * 1024)
      (sortLt ltTierSize
        (pass2 max_files (max_size_kb * 1024)
          (scanTiered files min_file_bytes max_file_kb)
          (scanPass1 files max_files max_size_kb min_file_bytes max_file_kb
            tier_size_cap)).1)
      [] 0 (Nat.zero_le _) (Nat.zero_le _)
  have hgs : get_source_files_content files max_files max_size_kb min_file_bytes
      max_file_kb tier_size_cap
      = { emitted := added, actual_size := sizeSum added,
          total_eligible := files.length } := by
    simp only [get_source_files_content]
    rw [heq]
    simp
  obtain ⟨hp1, hp2, hp3, hp4⟩ :=
    pass1Tiers_spec max_files (max_size_kb * 1024) tier_size_cap
      (scanTiered files min_file_bytes max_file_kb)
      [1, 2, 3, 4, 5, 6, 7] (by decide) [] 0 (Nat.zero_le _) (Nat.zero_le _)
  refine ⟨?_, ?_, ?_, ?_, ?_, ?_, ?_, ?_⟩
  · rw [hgs]
    simpa using hlen
  · rw [hgs]
  · rw [hgs]
    simpa using hsz
  · exact hp1
  · exact hp2
  · intro t
    refine (hp3 t).trans ?_
    simp only [tierCount, List.countP_nil]
    by_cases ht : t ∈ [1, 2, 3, 4, 5, 6, 7] <;> simp [ht, tier_file_cap]
  · intro t
    refine (hp4 t).trans ?_
    simp only [tierBytes, List.filter_nil, sizeSum_nil]
    by_cases ht : t ∈ [1, 2, 3, 4, 5, 6, 7] <;> simp [ht]
  · rw [hgs]
    exact (sortLt_tierSize_pairwise _).sublist hsub

/-! ### C9: retry policy -/

theorem retryFrom_rate_limited (ma rd : Nat) (san : String → String)
    (responses : Nat → CompletionResult) :
    ∀ (rem attempt : Nat), 1 ≤ attempt → attempt ≤ max ma 5 →
    attempt + rem = max ma 5 + 1 →
    (∀ k, attempt ≤ k → k ≤ max ma 5 →
      (responses k).success = false
      ∧ containsSubstr ((responses k).error.getD "") "429" = true
      ∧ containsAnyOf ((responses k).error.getD "") ["400", "401", "403", "404"]
          = false) →
    retryFrom ma rd (max ma 5) san responses attempt rem
      = { result := { responses (max ma 5) with
            error := some (san ((responses (max ma 5)).error.getD "")) },
          attemptsMade := max ma 5,
          sleeps := (List.range' attempt (max ma 5 - attempt)).map
            (fun i => 30 * min i 3) } := by
  intro rem
  induction rem with
  | zero => intro attempt h1 h2 h3 _; omega
  | succ rem ih =>
    intro attempt h1 h2 h3 hresp
    obtain ⟨hfail, h429, h4xx⟩ := hresp attempt (Nat.le_refl _) h2
    rw [retryFrom]
    by_cases hlast : max ma 5 ≤ attempt
    · have hat : attempt = max ma 5 := Nat.le_antisymm h2 hlast
      subst hat
      simp [hfail, h429, h4xx, Nat.sub_self, List.range']
    · have hrec := ih (attempt + 1) (by omega) (by omega) (by omega)
        (fun k hk1 hk2 => hresp k (by omega) hk2)
      have hr : max ma 5 - attempt = (max ma 5 - (attempt + 1)) + 1 := by omega
      simp [hfail, h429, h4xx, hlast, hrec, hr, List.range'_succ]

theorem retryFrom_server_error (ma rd : Nat) (san : String → String)
    (responses : Nat → CompletionResult) :
    ∀ (rem attempt : Nat), 1 ≤ attempt → attempt ≤ ma →
    attempt + rem = max ma 5 + 1 →
    (∀ k, attempt ≤ k → k ≤ ma →
      (responses k).success = false
      ∧ containsAnyOf ((responses k).error.getD "")
          ["500", "502", "503", "504", "timeout", "timed out"] = true
      ∧ containsSubstr ((responses k).error.getD "") "429" = false
      ∧ containsAnyOf ((responses k).error.getD "") ["400", "401", "403", "404"]
          = false) →
    retryFrom ma rd (max ma 5) san responses attempt rem
      = { result := { responses ma with
            error := some (san ((responses ma).error.getD "")) },
          attemptsMade := ma,
          sleeps := (List.range' attempt (ma - attempt)).map
            (fun i => rd * min i 3) } := by
  intro rem
  induction rem with
  | zero => intro attempt h1 h2 h3 _; omega
  | succ rem ih =>
    intro attempt h1 h2 h3 hresp
    obtain ⟨hfail, h5xx, h429, h4xx⟩ := hresp attempt (Nat.le_refl _) h2
    rw [retryFrom]
    by_cases hlast : ma ≤ attempt
    · have hat : attempt = ma := Nat.le_antisymm h2 hlast
      subst hat
      simp [hfail, h5xx, h429, h4xx, Nat.sub_self, List.range']
    · have hrec := ih (attempt + 1) (by omega) (by omega) (by omega)
        (fun k hk1 hk2 => hresp k (by omega) hk2)
      have hr : ma - attempt = (ma - (attempt + 1)) + 1 := by omega
      simp [hfail, h5xx, h429, h4xx, hlast, hrec, hr, List.range'_succ]

/-- C9: the retry policy of `complete_with_retry` — a failed response
carrying a 400/401/403/404 marker is never retried even when other markers
(including 429) are present; all-429 failures are retried for
`max(configured_attempts, 5)` attempts with 30-second base backoff scaled
by `min(attempt, 3)`; all-5xx/timeout failures are retried for the
configured attempt count with the configured base delay similarly scaled;
and in each case the exhausted loop returns the last failure with its
error message passed through the sanitizer. -/
theorem complete_with_retry_policy (ma rd : Nat) (san : String → String)
    (responses : Nat → CompletionResult) :
    ((responses 1).success = false →
      containsAnyOf ((responses 1).error.getD "") ["400", "401", "403", "404"]
          = true →
      complete_with_retry ma rd san responses
        = { result := { responses 1 with
              error := some (san ((responses 1).error.getD "")) },
            attemptsMade := 1, sleeps := [] })
    ∧ ((∀ k, 1 ≤ k → k ≤ max ma 5 →
          (responses k).success = false
          ∧ containsSubstr ((responses k).error.getD "") "429" = true
          ∧ containsAnyOf ((responses k).error.getD "") ["400", "401", "403", "404"]
              = false) →
        complete_with_retry ma rd san responses
          = { result := { responses (max ma 5) with
                error := some (san ((responses (max ma 5)).error.getD "")) },
              attemptsMade := max ma 5,
              sleeps := (List.range' 1 (max ma 5 - 1)).map (fun i => 30 * min i 3) })
    ∧ (1 ≤ ma →
        (∀ k, 1 ≤ k → k ≤ ma →
          (responses k).success = false
          ∧ containsAnyOf ((responses k).error.getD "")
              ["500", "502", "503", "504", "timeout", "timed out"] = true
          ∧ containsSubstr ((responses k).error.getD "") "429" = false
          ∧ containsAnyOf ((responses k).error.getD "") ["400", "401", "403", "404"]
              = false) →
        complete_with_retry ma rd san responses
          = { result := { responses ma with
                error := some (san ((responses ma).error.getD "")) },
              attemptsMade := ma,
              sleeps := (List.range' 1 (ma - 1)).map (fun i => rd * min i 3) }) := by
  have hrlm : 1 ≤ max ma 5 := by omega
  refine ⟨?_, ?_, ?_⟩
  · intro hfail h4xx
    unfold complete_with_retry
    have hshape : max ma 5 = (max ma 5 - 1) + 1 := by omega
    rw [hshape, retryFrom]
    simp only [hfail, Bool.false_eq_true, if_false]
    rw [if_pos (Or.inl (by rw [h4xx]; simp))]
  · intro hresp
    unfold complete_with_retry
    have h := retryFrom_rate_limited ma rd san responses (max ma 5) 1
      (Nat.le_refl _) hrlm (by omega) (fun k hk1 hk2 => hresp k hk1 hk2)
    exact h
  · intro hma hresp
    unfold complete_with_retry
    have h := retryFrom_server_error ma rd san responses (max ma 5) 1
      (Nat.le_refl _) hma (by omega) (fun k hk1 hk2 => hresp k hk1 hk2)
    exact h

/-- C9 witness: all three retry classes at concrete inputs (configured
attempts 2, configured delay 7, identity sanitizer, constant responses). -/
theorem complete_with_retry_policy_witness :
    complete_with_retry 2 7 (fun s => s)
        (fun _ => { success := false, error := some "got 429 then 404" })
      = { result := { success := false, error := some "got 429 then 404" },
          attemptsMade := 1, sleeps := [] }
    ∧ complete_with_retry 2 7 (fun s => s)
        (fun _ => { success := false, error := some "HTTP 429" })
      = { result := { success := false, error := some "HTTP 429" },
          attemptsMade := 5, sleeps := [30, 60, 90, 90] }
    ∧ complete_with_retry 2 7 (fun s => s)
        (fun _ => { success := false, error := some "502 bad gateway" })
      = { result := { success := false, error := some "502 bad gateway" },
          attemptsMade := 2, sleeps := [7] } := by
  refine ⟨?_, ?_, ?_⟩
  · have h := (complete_with_retry_policy 2 7 (fun s => s)
        (fun _ => { success := false, error := some "got 429 then 404" })).1
      (by decide) (by decide)
    rw [h]
    decide
  · have h := (complete_with_retry_policy 2 7 (fun s => s)
        (fun _ => { success := false, error := some "HTTP 429" })).2.1
      (fun k _ _ => ⟨by decide, by decide, by decide⟩)
    rw [h]
    decide
  · have h := (complete_with_retry_policy 2 7 (fun s => s)
        (fun _ => { success := false, error := some "502 bad gateway" })).2.2
      (by decide) (fun k _ _ => ⟨by decide, by decide, by decide, by decide⟩)
    rw [h]
    decide

/-- C7: concrete tier assignments from the spec's tiering examples. -/
theorem get_file_tier_examples :
    get_file_tier ["main.py"] = 1
    ∧ get_file_tier ["src", "services", "x.py"] = 2
    ∧ get_file_tier ["src", "models", "x.py"] = 3
    ∧ get_file_tier ["tests", "test_x.py"] = 4
    ∧ get_file_tier ["docs", "README.md"] = 5
    ∧ get_file_tier ["src", "components", "App.tsx"] = 6
    ∧ get_file_tier ["data", "data.csv"] = 7
    ∧ get_file_tier ["index.js"] = 1
    ∧ get_file_tier ["src", "components", "deep", "index.js"] ≠ 1
    ∧ get_file_tier ["src", "api", "settings.py"] ≠ 1 := by
  decide

end Conclave

